import Mathlib

/-!
Verification development for the indy-sdk command-execution core:
the crypto command executor (`libindy/src/commands/crypto.rs`) and the
command dispatcher (`src/commands/mod.rs`), embedded shallowly.
Operations are embedded as pure functions that also return the ordered
list of service-call events they perform, so ordering and absence of
wallet or primitive calls are provable facts about their results.
-/

set_option autoImplicit false

/-- Error taxonomy of the SDK core: `InvalidKeyFormat` for verkey format
validation failures, `WalletItemNotFound` and `WalletItemAlreadyExists` from
the wallet store, `CryptoOperationFailed` for primitive failures, and
`ChannelDisconnected` for dispatcher channel failures. -/
inductive IndyError where
  | InvalidKeyFormat
  | WalletItemNotFound
  | WalletItemAlreadyExists
  | CryptoOperationFailed
  | ChannelDisconnected
  deriving DecidableEq, Repr

/-- Modelled from the spec: `domain::crypto::key::Key` is not under `src/`;
the spec describes a stored entity with a string-encoded public `verkey`
(which doubles as the storage record name) and opaque private `signkey`
bytes. -/
structure Key where
  verkey : String
  signkey : List Nat
  deriving DecidableEq, Repr

/-- Modelled from the spec: `KeyInfo` is an ephemeral construction request
(optional seed, optional crypto-type tag) consumed by `create_key`. -/
structure KeyInfo where
  seed : Option String
  cryptoType : Option String
  deriving DecidableEq, Repr

/-- `KeyMetadata` as constructed in `crypto.rs`: a single free-form string
`value`. -/
structure KeyMetadata where
  value : String
  deriving DecidableEq, Repr

/-- The external `CryptoService` consumed by the executor, kept abstract:
each field is one primitive of the assumed contract (`validate_key`,
`create_key`, `sign`, `verify`, `authenticated_encrypt`,
`authenticated_decrypt`, `crypto_box_seal`, `crypto_box_seal_open`).
Byte buffers are `List Nat`. -/
structure CryptoService where
  validate_key : String → Except IndyError Unit
  create_key : KeyInfo → Except IndyError Key
  sign : Key → List Nat → Except IndyError (List Nat)
  verify : String → List Nat → List Nat → Except IndyError Bool
  authenticated_encrypt : Key → String → List Nat → Except IndyError (List Nat)
  authenticated_decrypt : Key → List Nat → Except IndyError (String × List Nat)
  crypto_box_seal : String → List Nat → Except IndyError (List Nat)
  crypto_box_seal_open : Key → List Nat → Except IndyError (List Nat)

/-- Lookup in a name-addressed record list scoped by wallet handle. -/
def assocGet {α : Type} : List ((Int × String) × α) → Int → String → Option α
  | [], _, _ => none
  | (k, v) :: rest, h, n => if k = (h, n) then some v else assocGet rest h n

/-- Modelled from the spec: the wallet store holds named, typed records
scoped by an opaque integer handle; only the two record types used by
`crypto.rs` appear (`Key` records and `KeyMetadata` records), each its own
name space. -/
structure WalletState where
  keys : List ((Int × String) × Key)
  meta : List ((Int × String) × KeyMetadata)
  deriving DecidableEq, Repr

/-- Modelled from the spec: `add_object(scope, name, value, tags)` fails with
already-exists if `name` already exists in `scope`; this is the
`add_indy_object` call made by `create_key`. -/
def wallet_add_key (w : WalletState) (h : Int) (name : String) (k : Key) :
    Except IndyError WalletState :=
  match assocGet w.keys h name with
  | some _ => Except.error IndyError.WalletItemAlreadyExists
  | none => Except.ok { w with keys := ((h, name), k) :: w.keys }

/-- Modelled from the spec: `get_object` fails with not-found if absent; this
is the `get_indy_object::<Key>` call made by the signing and decryption
operations. -/
def wallet_get_key (w : WalletState) (h : Int) (name : String) :
    Except IndyError Key :=
  match assocGet w.keys h name with
  | some k => Except.ok k
  | none => Except.error IndyError.WalletItemNotFound

/-- Modelled from the spec: `get_object` fails with not-found if absent; this
is the `get_indy_object::<KeyMetadata>` call made by `get_key_metadata`. -/
def wallet_get_metadata (w : WalletState) (h : Int) (name : String) :
    Except IndyError KeyMetadata :=
  match assocGet w.meta h name with
  | some m => Except.ok m
  | none => Except.error IndyError.WalletItemNotFound

/-- Modelled from the spec: `upsert_object` is create-or-replace and never
fails on absence; this is the `upsert_indy_object` call made by
`set_key_metadata`. -/
def wallet_upsert_metadata (w : WalletState) (h : Int) (name : String)
    (m : KeyMetadata) : WalletState :=
  { w with
    meta := ((h, name), m) :: w.meta.filter (fun q => ! decide (q.1 = (h, name))) }

/-- One observable service call performed by a crypto operation, in program
order: verkey format validation, a wallet record access, or a cryptographic
primitive invocation. -/
inductive Event where
  | validateKey (vk : String)
  | walletGetKey (h : Int) (name : String)
  | walletGetMetadata (h : Int) (name : String)
  | walletAddKey (h : Int) (name : String)
  | walletUpsertMetadata (h : Int) (name : String)
  | primCreateKey
  | primSign
  | primVerify
  | primAuthEncrypt
  | primAuthDecrypt
  | primSeal
  | primSealOpen
  deriving DecidableEq, Repr

/-- Whether an event is a wallet-store access. -/
def Event.isWalletCall : Event → Bool
  | .walletGetKey _ _ => true
  | .walletGetMetadata _ _ => true
  | .walletAddKey _ _ => true
  | .walletUpsertMetadata _ _ => true
  | _ => false

/-- Whether an event is a cryptographic-primitive invocation (format
validation of a verkey string is not counted as a primitive). -/
def Event.isPrimCall : Event → Bool
  | .primCreateKey => true
  | .primSign => true
  | .primVerify => true
  | .primAuthEncrypt => true
  | .primAuthDecrypt => true
  | .primSeal => true
  | .primSealOpen => true
  | _ => false

/-- Whether an event is a verkey format validation. -/
def Event.isValidate : Event → Bool
  | .validateKey _ => true
  | _ => false

/-- `CryptoCommandExecutor::create_key`: generate a key pair via the crypto
service, persist it as a new `Key` record named by its verkey, return the
verkey. -/
def create_key (cs : CryptoService) (w : WalletState) (wallet_handle : Int)
    (key_info : KeyInfo) : Except IndyError String × List Event × WalletState :=
  match cs.create_key key_info with
  | Except.error e => (Except.error e, [Event.primCreateKey], w)
  | Except.ok key =>
    match wallet_add_key w wallet_handle key.verkey key with
    | Except.error e =>
      (Except.error e,
       [Event.primCreateKey, Event.walletAddKey wallet_handle key.verkey], w)
    | Except.ok w2 =>
      (Except.ok key.verkey,
       [Event.primCreateKey, Event.walletAddKey wallet_handle key.verkey], w2)

/-- `CryptoCommandExecutor::crypto_sign`: validate `my_vk`, fetch the `Key`
record named by it, sign the message with it. -/
def crypto_sign (cs : CryptoService) (w : WalletState) (wallet_handle : Int)
    (my_vk : String) (msg : List Nat) :
    Except IndyError (List Nat) × List Event :=
  match cs.validate_key my_vk with
  | Except.error e => (Except.error e, [Event.validateKey my_vk])
  | Except.ok _ =>
    match wallet_get_key w wallet_handle my_vk with
    | Except.error e =>
      (Except.error e,
       [Event.validateKey my_vk, Event.walletGetKey wallet_handle my_vk])
    | Except.ok key =>
      (cs.sign key msg,
       [Event.validateKey my_vk, Event.walletGetKey wallet_handle my_vk,
        Event.primSign])

/-- `CryptoCommandExecutor::crypto_verify`: validate `their_vk`, then verify
the signature against the message with the crypto service only; the wallet
service is never consulted. -/
def crypto_verify (cs : CryptoService) (their_vk : String) (msg : List Nat)
    (signature : List Nat) : Except IndyError Bool × List Event :=
  match cs.validate_key their_vk with
  | Except.error e => (Except.error e, [Event.validateKey their_vk])
  | Except.ok _ =>
    (cs.verify their_vk msg signature,
     [Event.validateKey their_vk, Event.primVerify])

/-- `CryptoCommandExecutor::authenticated_encrypt`: validate `my_vk`, then
`their_vk`, fetch the sender `Key` record named by `my_vk`, then run the
authenticated-encryption primitive. -/
def authenticated_encrypt (cs : CryptoService) (w : WalletState)
    (wallet_handle : Int) (my_vk their_vk : String) (msg : List Nat) :
    Except IndyError (List Nat) × List Event :=
  match cs.validate_key my_vk with
  | Except.error e => (Except.error e, [Event.validateKey my_vk])
  | Except.ok _ =>
    match cs.validate_key their_vk with
    | Except.error e =>
      (Except.error e, [Event.validateKey my_vk, Event.validateKey their_vk])
    | Except.ok _ =>
      match wallet_get_key w wallet_handle my_vk with
      | Except.error e =>
        (Except.error e,
         [Event.validateKey my_vk, Event.validateKey their_vk,
          Event.walletGetKey wallet_handle my_vk])
      | Except.ok my_key =>
        (cs.authenticated_encrypt my_key their_vk msg,
         [Event.validateKey my_vk, Event.validateKey their_vk,
          Event.walletGetKey wallet_handle my_vk, Event.primAuthEncrypt])

/-- `CryptoCommandExecutor::authenticated_decrypt`: validate `my_vk`, fetch
the recipient `Key` record named by it, then run the
authenticated-decryption primitive, which recovers the sender verkey
alongside the plaintext; the recovered sender verkey is returned as-is. -/
def authenticated_decrypt (cs : CryptoService) (w : WalletState)
    (wallet_handle : Int) (my_vk : String) (msg : List Nat) :
    Except IndyError (String × List Nat) × List Event :=
  match cs.validate_key my_vk with
  | Except.error e => (Except.error e, [Event.validateKey my_vk])
  | Except.ok _ =>
    match wallet_get_key w wallet_handle my_vk with
    | Except.error e =>
      (Except.error e,
       [Event.validateKey my_vk, Event.walletGetKey wallet_handle my_vk])
    | Except.ok my_key =>
      (cs.authenticated_decrypt my_key msg,
       [Event.validateKey my_vk, Event.walletGetKey wallet_handle my_vk,
        Event.primAuthDecrypt])

/-- `CryptoCommandExecutor::anonymous_encrypt`: validate `their_vk`, then run
the sealed-box primitive with the recipient public key only; no wallet
access. -/
def anonymous_encrypt (cs : CryptoService) (their_vk : String)
    (msg : List Nat) : Except IndyError (List Nat) × List Event :=
  match cs.validate_key their_vk with
  | Except.error e => (Except.error e, [Event.validateKey their_vk])
  | Except.ok _ =>
    (cs.crypto_box_seal their_vk msg,
     [Event.validateKey their_vk, Event.primSeal])

/-- `CryptoCommandExecutor::anonymous_decrypt`: validate `my_vk`, fetch the
recipient `Key` record named by it, then open the sealed box. -/
def anonymous_decrypt (cs : CryptoService) (w : WalletState)
    (wallet_handle : Int) (my_vk : String) (encrypted_msg : List Nat) :
    Except IndyError (List Nat) × List Event :=
  match cs.validate_key my_vk with
  | Except.error e => (Except.error e, [Event.validateKey my_vk])
  | Except.ok _ =>
    match wallet_get_key w wallet_handle my_vk with
    | Except.error e =>
      (Except.error e,
       [Event.validateKey my_vk, Event.walletGetKey wallet_handle my_vk])
    | Except.ok my_key =>
      (cs.crypto_box_seal_open my_key encrypted_msg,
       [Event.validateKey my_vk, Event.walletGetKey wallet_handle my_vk,
        Event.primSealOpen])

/-- `CryptoCommandExecutor::set_key_metadata`: validate `verkey`, then upsert
the `KeyMetadata` record named by it. -/
def set_key_metadata (cs : CryptoService) (w : WalletState)
    (wallet_handle : Int) (verkey metadata : String) :
    Except IndyError Unit × List Event × WalletState :=
  match cs.validate_key verkey with
  | Except.error e => (Except.error e, [Event.validateKey verkey], w)
  | Except.ok _ =>
    (Except.ok (),
     [Event.validateKey verkey, Event.walletUpsertMetadata wallet_handle verkey],
     wallet_upsert_metadata w wallet_handle verkey { value := metadata })

/-- `CryptoCommandExecutor::get_key_metadata`: validate `verkey`, then fetch
the `KeyMetadata` record named by it and return its `value`. -/
def get_key_metadata (cs : CryptoService) (w : WalletState)
    (wallet_handle : Int) (verkey : String) :
    Except IndyError String × List Event :=
  match cs.validate_key verkey with
  | Except.error e => (Except.error e, [Event.validateKey verkey])
  | Except.ok _ =>
    match wallet_get_metadata w wallet_handle verkey with
    | Except.error e =>
      (Except.error e,
       [Event.validateKey verkey, Event.walletGetMetadata wallet_handle verkey])
    | Except.ok metadata =>
      (Except.ok metadata.value,
       [Event.validateKey verkey, Event.walletGetMetadata wallet_handle verkey])

/-- `CryptoCommand` from `crypto.rs`: a closed variant set with 9 cases, each
carrying its scalar inputs and exactly one completion callback; callbacks are
modelled by a numeric identifier, and the heterogeneous result each callback
receives is wrapped in `CryptoResult`. -/
inductive CryptoCommand where
  | CreateKey (wallet_handle : Int) (key_info : KeyInfo) (cb : Nat)
  | SetKeyMetadata (wallet_handle : Int) (verkey metadata : String) (cb : Nat)
  | GetKeyMetadata (wallet_handle : Int) (verkey : String) (cb : Nat)
  | CryptoSign (wallet_handle : Int) (my_vk : String) (msg : List Nat) (cb : Nat)
  | CryptoVerify (their_vk : String) (msg signature : List Nat) (cb : Nat)
  | AuthenticatedEncrypt (wallet_handle : Int) (my_vk their_vk : String)
      (msg : List Nat) (cb : Nat)
  | AuthenticatedDecrypt (wallet_handle : Int) (my_vk : String)
      (encrypted_msg : List Nat) (cb : Nat)
  | AnonymousEncrypt (their_vk : String) (msg : List Nat) (cb : Nat)
  | AnonymousDecrypt (wallet_handle : Int) (my_vk : String)
      (encrypted_msg : List Nat) (cb : Nat)
  deriving DecidableEq, Repr

/-- The callback identifier carried by a crypto command. -/
def CryptoCommand.cbId : CryptoCommand → Nat
  | .CreateKey _ _ cb => cb
  | .SetKeyMetadata _ _ _ cb => cb
  | .GetKeyMetadata _ _ cb => cb
  | .CryptoSign _ _ _ cb => cb
  | .CryptoVerify _ _ _ cb => cb
  | .AuthenticatedEncrypt _ _ _ _ cb => cb
  | .AuthenticatedDecrypt _ _ _ cb => cb
  | .AnonymousEncrypt _ _ cb => cb
  | .AnonymousDecrypt _ _ _ cb => cb

/-- The heterogeneous result type delivered to a crypto completion callback:
unit, string, boolean, byte buffer, or the (sender verkey, plaintext) pair of
authenticated decryption. -/
inductive CryptoResult where
  | rUnit (r : Except IndyError Unit)
  | rString (r : Except IndyError String)
  | rBool (r : Except IndyError Bool)
  | rBytes (r : Except IndyError (List Nat))
  | rPair (r : Except IndyError (String × List Nat))
  deriving Repr

/-- `CryptoCommandExecutor::execute`: match on the command, run the matching
operation to completion, and invoke the command's callback with the result;
the returned list records each callback invocation in order. -/
def crypto_execute (cs : CryptoService) (w : WalletState) :
    CryptoCommand → WalletState × List (Nat × CryptoResult)
  | CryptoCommand.CreateKey wh ki cb =>
    ((create_key cs w wh ki).2.2,
     [(cb, CryptoResult.rString (create_key cs w wh ki).1)])
  | CryptoCommand.SetKeyMetadata wh vk m cb =>
    ((set_key_metadata cs w wh vk m).2.2,
     [(cb, CryptoResult.rUnit (set_key_metadata cs w wh vk m).1)])
  | CryptoCommand.GetKeyMetadata wh vk cb =>
    (w, [(cb, CryptoResult.rString (get_key_metadata cs w wh vk).1)])
  | CryptoCommand.CryptoSign wh vk msg cb =>
    (w, [(cb, CryptoResult.rBytes (crypto_sign cs w wh vk msg).1)])
  | CryptoCommand.CryptoVerify vk msg sg cb =>
    (w, [(cb, CryptoResult.rBool (crypto_verify cs vk msg sg).1)])
  | CryptoCommand.AuthenticatedEncrypt wh my their msg cb =>
    (w, [(cb, CryptoResult.rBytes (authenticated_encrypt cs w wh my their msg).1)])
  | CryptoCommand.AuthenticatedDecrypt wh my msg cb =>
    (w, [(cb, CryptoResult.rPair (authenticated_decrypt cs w wh my msg).1)])
  | CryptoCommand.AnonymousEncrypt their msg cb =>
    (w, [(cb, CryptoResult.rBytes (anonymous_encrypt cs their msg).1)])
  | CryptoCommand.AnonymousDecrypt wh my msg cb =>
    (w, [(cb, CryptoResult.rBytes (anonymous_decrypt cs w wh my msg).1)])

/-- Modelled from the spec: `commands/agent.rs` is not under `src/`; a domain
sub-command carries its inputs and exactly one single-invocation completion
callback, modelled here by the callback identifier alone. -/
structure AgentCommand where
  cbId : Nat
  deriving DecidableEq, Repr

/-- Modelled from the spec: sibling domain sub-command (see `AgentCommand`). -/
structure AnoncredsCommand where
  cbId : Nat
  deriving DecidableEq, Repr

/-- Modelled from the spec: sibling domain sub-command (see `AgentCommand`). -/
structure LedgerCommand where
  cbId : Nat
  deriving DecidableEq, Repr

/-- Modelled from the spec: sibling domain sub-command (see `AgentCommand`). -/
structure PoolCommand where
  cbId : Nat
  deriving DecidableEq, Repr

/-- Modelled from the spec: sibling domain sub-command (see `AgentCommand`). -/
structure SignusCommand where
  cbId : Nat
  deriving DecidableEq, Repr

/-- Modelled from the spec: sibling domain sub-command (see `AgentCommand`). -/
structure WalletCommand where
  cbId : Nat
  deriving DecidableEq, Repr

/-- Modelled from the spec: the agent sub-executor's `execute` runs the
command to completion and invokes its single-invocation completion callback
exactly once, synchronously; only the callback invocations are recorded. -/
def agent_execute (c : AgentCommand) : List Nat := [c.cbId]

/-- Modelled from the spec: sibling sub-executor (see `agent_execute`). -/
def anoncreds_execute (c : AnoncredsCommand) : List Nat := [c.cbId]

/-- Modelled from the spec: sibling sub-executor (see `agent_execute`). -/
def ledger_execute (c : LedgerCommand) : List Nat := [c.cbId]

/-- Modelled from the spec: sibling sub-executor (see `agent_execute`). -/
def pool_execute (c : PoolCommand) : List Nat := [c.cbId]

/-- Modelled from the spec: sibling sub-executor (see `agent_execute`). -/
def signus_execute (c : SignusCommand) : List Nat := [c.cbId]

/-- Modelled from the spec: sibling sub-executor (see `agent_execute`). -/
def wallet_execute (c : WalletCommand) : List Nat := [c.cbId]

/-- The top-level `Command` enum from `src/commands/mod.rs`: the `Exit`
sentinel plus one case per domain subsystem, each wrapping that domain's
sub-command. -/
inductive Command where
  | Exit
  | Agent (cmd : AgentCommand)
  | Anoncreds (cmd : AnoncredsCommand)
  | Ledger (cmd : LedgerCommand)
  | Pool (cmd : PoolCommand)
  | Signus (cmd : SignusCommand)
  | Wallet (cmd : WalletCommand)
  deriving DecidableEq, Repr

/-- The variant name of a top-level command. -/
def Command.tag : Command → String
  | .Exit => "Exit"
  | .Agent _ => "Agent"
  | .Anoncreds _ => "Anoncreds"
  | .Ledger _ => "Ledger"
  | .Pool _ => "Pool"
  | .Signus _ => "Signus"
  | .Wallet _ => "Wallet"

/-- The variant names of the `Command` enum, in source order. -/
def commandVariantTags : List String :=
  ["Exit", "Agent", "Anoncreds", "Ledger", "Pool", "Signus", "Wallet"]

/-- The completion callback carried by a top-level command (`Exit` carries
none). -/
def Command.cbId : Command → Option Nat
  | .Exit => none
  | .Agent c => some c.cbId
  | .Anoncreds c => some c.cbId
  | .Ledger c => some c.cbId
  | .Pool c => some c.cbId
  | .Signus c => some c.cbId
  | .Wallet c => some c.cbId

/-- The worker receive loop of `CommandExecutor::new`, over the channel
contents in dequeue order: match the dequeued command's outer variant,
forward the inner sub-command to that domain's sub-executor, and only then
dequeue the next command; on `Exit`, break the loop. The result is the
ordered list of callback invocations the loop performs; an exhausted queue
ends the recorded trace. -/
def workerRun : List Command → List Nat
  | [] => []
  | Command.Agent c :: rest => agent_execute c ++ workerRun rest
  | Command.Anoncreds c :: rest => anoncreds_execute c ++ workerRun rest
  | Command.Ledger c :: rest => ledger_execute c ++ workerRun rest
  | Command.Pool c :: rest => pool_execute c ++ workerRun rest
  | Command.Signus c :: rest => signus_execute c ++ workerRun rest
  | Command.Wallet c :: rest => wallet_execute c ++ workerRun rest
  | Command.Exit :: _ => []

/-- `Drop for CommandExecutor`: send the `Exit` sentinel after the pending
commands, then join the worker; the joined worker's trace is the loop run
over the pending queue followed by `Exit`. -/
def commandExecutorDrop (pending : List Command) : List Nat :=
  workerRun (pending ++ [Command.Exit])

/-- A multi-producer channel endpoint as seen by `CommandExecutor::send`:
the queued commands plus whether the receiving worker is still alive. -/
structure Channel where
  queue : List Command
  connected : Bool
  deriving DecidableEq, Repr

/-- The error type `CommandExecutor::send` maps a channel failure into. -/
inductive CommonError where
  | InvalidState (descr : String)
  deriving DecidableEq, Repr

/-- Modelled from the spec: sending on the unbounded channel appends to the
queue and fails exactly when the receiver (the worker thread) has already
terminated. -/
def channel_send (ch : Channel) (c : Command) : Except String Channel :=
  if ch.connected then Except.ok { ch with queue := ch.queue ++ [c] }
  else Except.error "sending on a closed channel"

/-- `CommandExecutor::send`: forward to the channel, mapping a channel error
into `CommonError::InvalidState` of its description. -/
def commandExecutorSend (ch : Channel) (cmd : Command) :
    Except CommonError Channel :=
  match channel_send ch cmd with
  | Except.ok ch2 => Except.ok ch2
  | Except.error descr => Except.error (CommonError.InvalidState descr)

/-- A concrete crypto service used to evaluate the executor on closed
inputs: a verkey validates unless it is the literal string "bad", key
generation yields a fixed key named "VK1", and authenticated decryption
recovers the sender verkey "bad" alongside the ciphertext. -/
def csTest : CryptoService where
  validate_key := fun s =>
    if s = "bad" then Except.error IndyError.InvalidKeyFormat else Except.ok ()
  create_key := fun _ => Except.ok { verkey := "VK1", signkey := [7] }
  sign := fun k m => Except.ok (m ++ k.signkey)
  verify := fun _ _ _ => Except.ok true
  authenticated_encrypt := fun _ _ m => Except.ok (0 :: m)
  authenticated_decrypt := fun _ m => Except.ok ("bad", m)
  crypto_box_seal := fun _ m => Except.ok (1 :: m)
  crypto_box_seal_open := fun _ m => Except.ok m

/-- A concrete wallet holding one `Key` record named "good" under handle 1
and no metadata records. -/
def wTest : WalletState where
  keys := [((1, "good"), { verkey := "good", signkey := [7] })]
  meta := []

/-- C1: every verkey-accepting operation of the crypto executor that is
handed a verkey failing format validation returns that validation error with
the format check as its only service call — no wallet access, no
cryptographic primitive call, and the wallet state unchanged; for
`authenticated_encrypt` this holds for either of its two verkeys. -/
theorem C1_validation_precedes_io (cs : CryptoService) (w : WalletState)
    (wh : Int) (vk good : String) (msg signature : List Nat) (m : String)
    (e : IndyError)
    (hbad : cs.validate_key vk = Except.error e)
    (hgood : cs.validate_key good = Except.ok ()) :
    set_key_metadata cs w wh vk m = (Except.error e, [Event.validateKey vk], w) ∧
    get_key_metadata cs w wh vk = (Except.error e, [Event.validateKey vk]) ∧
    crypto_sign cs w wh vk msg = (Except.error e, [Event.validateKey vk]) ∧
    crypto_verify cs vk msg signature = (Except.error e, [Event.validateKey vk]) ∧
    authenticated_encrypt cs w wh vk good msg =
      (Except.error e, [Event.validateKey vk]) ∧
    authenticated_encrypt cs w wh good vk msg =
      (Except.error e, [Event.validateKey good, Event.validateKey vk]) ∧
    authenticated_decrypt cs w wh vk msg =
      (Except.error e, [Event.validateKey vk]) ∧
    anonymous_encrypt cs vk msg = (Except.error e, [Event.validateKey vk]) ∧
    anonymous_decrypt cs w wh vk msg = (Except.error e, [Event.validateKey vk]) ∧
    (∀ s2, Event.isWalletCall (Event.validateKey s2) = false ∧
      Event.isPrimCall (Event.validateKey s2) = false) := by
  refine ⟨?_, ?_, ?_, ?_, ?_, ?_, ?_, ?_, ?_, ?_⟩
  · simp [set_key_metadata, hbad]
  · simp [get_key_metadata, hbad]
  · simp [crypto_sign, hbad]
  · simp [crypto_verify, hbad]
  · simp [authenticated_encrypt, hbad]
  · simp [authenticated_encrypt, hbad, hgood]
  · simp [authenticated_decrypt, hbad]
  · simp [anonymous_encrypt, hbad]
  · simp [anonymous_decrypt, hbad]
  · intro s2; exact ⟨rfl, rfl⟩

/-- C1 witness: the concrete service rejects the verkey "bad", and
`set_key_metadata` and `crypto_sign` on it return the validation error with
only the format check performed and the wallet untouched. -/
theorem C1_witness :
    csTest.validate_key "bad" = Except.error IndyError.InvalidKeyFormat ∧
    csTest.validate_key "good" = Except.ok () ∧
    set_key_metadata csTest wTest 1 "bad" "m1" =
      (Except.error IndyError.InvalidKeyFormat, [Event.validateKey "bad"], wTest) ∧
    crypto_sign csTest wTest 1 "bad" [0] =
      (Except.error IndyError.InvalidKeyFormat, [Event.validateKey "bad"]) := by
  have h := C1_validation_precedes_io csTest wTest 1 "bad" "good" [0] [0] "m1"
    IndyError.InvalidKeyFormat rfl rfl
  exact ⟨rfl, rfl, h.1, h.2.2.1⟩

/-- Whether the top-level `Command` enum has a variant with the given tag. -/
def commandHasVariant (t : String) : Prop :=
  ∃ c : Command, Command.tag c = t

/-- C2 counterexample: the top-level `Command` enum of `commands/mod.rs` has
no `Crypto` variant at all — its domain cases are Agent, Anoncreds, Ledger,
Pool, Signus and Wallet. -/
theorem C2_no_crypto_variant : ¬ commandHasVariant "Crypto" := by
  rintro ⟨c, hc⟩
  cases c <;> simp [Command.tag] at hc

/-- C2 (amended): the top-level `Command` enum is a closed variant set whose
tags are exactly Exit, Agent, Anoncreds, Ledger, Pool, Signus and Wallet;
`Exit` carries no payload, and every other case wraps exactly one domain
sub-command. There is no Crypto case. -/
theorem C2_command_variant_set :
    (∀ c : Command, Command.tag c ∈ commandVariantTags) ∧
    (∀ c : Command, Command.tag c = "Exit" → c = Command.Exit) ∧
    (∀ c : Command, c = Command.Exit ∨ (∃ a, c = Command.Agent a) ∨
      (∃ a, c = Command.Anoncreds a) ∨ (∃ a, c = Command.Ledger a) ∨
      (∃ a, c = Command.Pool a) ∨ (∃ a, c = Command.Signus a) ∨
      (∃ a, c = Command.Wallet a)) := by
  refine ⟨?_, ?_, ?_⟩ <;> intro c <;> cases c <;>
    simp [Command.tag, commandVariantTags]

/-- C2 witness: the `Exit` tag is among the variant tags, and the only
command tagged `Exit` is the payload-free sentinel itself. -/
theorem C2_witness :
    Command.tag Command.Exit ∈ commandVariantTags ∧
    Command.Exit = Command.Exit :=
  ⟨C2_command_variant_set.1 Command.Exit,
   C2_command_variant_set.2.1 Command.Exit rfl⟩

/-- C3: the worker loop processes commands strictly in dequeue order, one at
a time: over any queue without the `Exit` sentinel, the callback invocations
it performs are exactly the queued commands' callbacks, each exactly once,
in enqueue order; and `CryptoCommandExecutor::execute` invokes exactly the
dequeued command's completion callback, exactly once, in-line. -/
theorem C3_fifo_single_dispatch :
    (∀ q : List Command, Command.Exit ∉ q →
      workerRun q = q.filterMap Command.cbId) ∧
    (∀ (cs : CryptoService) (w : WalletState) (cmd : CryptoCommand),
      (crypto_execute cs w cmd).2.map Prod.fst = [cmd.cbId]) := by
  constructor
  · intro q hq
    induction q with
    | nil => rfl
    | cons c rest ih =>
      have hrest : Command.Exit ∉ rest := fun h => hq (List.mem_cons_of_mem _ h)
      cases c with
      | Exit => exact absurd (List.mem_cons_self _ _) hq
      | Agent c =>
        simp [workerRun, agent_execute, Command.cbId, ih hrest]
      | Anoncreds c =>
        simp [workerRun, anoncreds_execute, Command.cbId, ih hrest]
      | Ledger c =>
        simp [workerRun, ledger_execute, Command.cbId, ih hrest]
      | Pool c =>
        simp [workerRun, pool_execute, Command.cbId, ih hrest]
      | Signus c =>
        simp [workerRun, signus_execute, Command.cbId, ih hrest]
      | Wallet c =>
        simp [workerRun, wallet_execute, Command.cbId, ih hrest]
  · intro cs w cmd
    cases cmd <;> simp [crypto_execute, CryptoCommand.cbId]

/-- C3 witness: a two-command queue completes its callbacks in enqueue
order, and the crypto executor run on a concrete verify command invokes
callback 5 exactly once. -/
theorem C3_witness :
    Command.Exit ∉
      [Command.Agent { cbId := 1 }, Command.Wallet { cbId := 2 }] ∧
    workerRun [Command.Agent { cbId := 1 }, Command.Wallet { cbId := 2 }] =
      [1, 2] ∧
    (crypto_execute csTest wTest
        (CryptoCommand.CryptoVerify "good" [0] [0] 5)).2.map Prod.fst = [5] :=
  ⟨by decide,
   (C3_fifo_single_dispatch.1
     [Command.Agent { cbId := 1 }, Command.Wallet { cbId := 2 }]
     (by decide)).trans rfl,
   C3_fifo_single_dispatch.2 csTest wTest
     (CryptoCommand.CryptoVerify "good" [0] [0] 5)⟩

/-- C4: on the first `Exit` the worker loop breaks: everything queued before
`Exit` is processed and nothing after it is, the run being independent of
the commands behind the sentinel; destruction (send `Exit`, then join)
therefore leaves a terminated worker whose trace is exactly that of the
pending queue. -/
theorem C4_exit_terminates (q post : List Command)
    (hq : Command.Exit ∉ q) :
    workerRun (q ++ Command.Exit :: post) = workerRun q ∧
    commandExecutorDrop q = workerRun q := by
  have key : ∀ p, workerRun (q ++ Command.Exit :: p) = workerRun q := by
    intro p
    induction q with
    | nil => rfl
    | cons c rest ih =>
      have hrest : Command.Exit ∉ rest := fun h => hq (List.mem_cons_of_mem _ h)
      have ih2 := ih hrest
      cases c with
      | Exit => exact absurd (List.mem_cons_self _ _) hq
      | Agent c => simpa [workerRun] using ih2
      | Anoncreds c => simpa [workerRun] using ih2
      | Ledger c => simpa [workerRun] using ih2
      | Pool c => simpa [workerRun] using ih2
      | Signus c => simpa [workerRun] using ih2
      | Wallet c => simpa [workerRun] using ih2
  exact ⟨key post, key []⟩

/-- C4 witness: a queue of one pool command followed by `Exit` and a
post-`Exit` agent command runs exactly the pool command's callback; the
destruction model agrees. -/
theorem C4_witness :
    Command.Exit ∉ [Command.Pool { cbId := 3 }] ∧
    workerRun
        ([Command.Pool { cbId := 3 }] ++
          Command.Exit :: [Command.Agent { cbId := 9 }]) =
      workerRun [Command.Pool { cbId := 3 }] ∧
    commandExecutorDrop [Command.Pool { cbId := 3 }] =
      workerRun [Command.Pool { cbId := 3 }] :=
  ⟨by decide,
   (C4_exit_terminates [Command.Pool { cbId := 3 }]
     [Command.Agent { cbId := 9 }] (by decide)).1,
   (C4_exit_terminates [Command.Pool { cbId := 3 }]
     [Command.Agent { cbId := 9 }] (by decide)).2⟩

/-- C5: for every wallet state, handle and well-formed verkey, setting
metadata succeeds (also on absence), a following read returns the value
just written, and a second write with a different value leaves only the
latest value readable. -/
theorem C5_metadata_roundtrip (cs : CryptoService) (w : WalletState)
    (wh : Int) (vk m m2 : String)
    (hv : cs.validate_key vk = Except.ok ()) :
    (set_key_metadata cs w wh vk m).1 = Except.ok () ∧
    (get_key_metadata cs (set_key_metadata cs w wh vk m).2.2 wh vk).1 =
      Except.ok m ∧
    (set_key_metadata cs (set_key_metadata cs w wh vk m).2.2 wh vk m2).1 =
      Except.ok () ∧
    (get_key_metadata cs
        (set_key_metadata cs (set_key_metadata cs w wh vk m).2.2 wh vk m2).2.2
        wh vk).1 = Except.ok m2 := by
  refine ⟨?_, ?_, ?_, ?_⟩ <;>
    simp [set_key_metadata, hv, get_key_metadata, wallet_get_metadata,
      wallet_upsert_metadata, assocGet]

/-- C5 witness: writing "m1" then "m2" for the verkey "good" on the concrete
wallet leaves exactly "m2" readable, and the first read after the first
write returned "m1". -/
theorem C5_witness :
    csTest.validate_key "good" = Except.ok () ∧
    (get_key_metadata csTest
        (set_key_metadata csTest wTest 1 "good" "m1").2.2 1 "good").1 =
      Except.ok "m1" ∧
    (get_key_metadata csTest
        (set_key_metadata csTest
          (set_key_metadata csTest wTest 1 "good" "m1").2.2 1 "good" "m2").2.2
        1 "good").1 = Except.ok "m2" := by
  have h := C5_metadata_roundtrip csTest wTest 1 "good" "m1" "m2" rfl
  exact ⟨rfl, h.2.1, h.2.2.2⟩

/-- C6: `create_key` generates a key pair via the crypto service, persists
it as a new `Key` record whose storage name is the key's verkey, and returns
that verkey; if a record with that name already exists under the handle the
add is rejected with already-exists and the stored record is untouched, and
a generation failure propagates without any wallet call. -/
theorem C6_create_key_persists (cs : CryptoService) (w : WalletState)
    (wh : Int) (ki : KeyInfo) (key : Key) (e : IndyError) :
    (cs.create_key ki = Except.ok key →
      (assocGet w.keys wh key.verkey = none →
        create_key cs w wh ki =
          (Except.ok key.verkey,
           [Event.primCreateKey, Event.walletAddKey wh key.verkey],
           { w with keys := ((wh, key.verkey), key) :: w.keys })) ∧
      (∀ k0, assocGet w.keys wh key.verkey = some k0 →
        create_key cs w wh ki =
          (Except.error IndyError.WalletItemAlreadyExists,
           [Event.primCreateKey, Event.walletAddKey wh key.verkey], w))) ∧
    (cs.create_key ki = Except.error e →
      create_key cs w wh ki = (Except.error e, [Event.primCreateKey], w)) := by
  constructor
  · intro hok
    constructor
    · intro habs
      simp [create_key, hok, wallet_add_key, habs]
    · intro k0 hsome
      simp [create_key, hok, wallet_add_key, hsome]
  · intro herr
    simp [create_key, herr]

/-- C6 witness: on the concrete service the generated key is named "VK1",
absent from the concrete wallet, so creation returns "VK1" and stores the
record; repeating it on the updated wallet is rejected with already-exists
and leaves the wallet unchanged. -/
theorem C6_witness :
    csTest.create_key { seed := none, cryptoType := none } =
      Except.ok { verkey := "VK1", signkey := [7] } ∧
    assocGet wTest.keys 1 "VK1" = none ∧
    create_key csTest wTest 1 { seed := none, cryptoType := none } =
      (Except.ok "VK1", [Event.primCreateKey, Event.walletAddKey 1 "VK1"],
       { wTest with keys := ((1, "VK1"), { verkey := "VK1", signkey := [7] })
          :: wTest.keys }) ∧
    create_key csTest
        { wTest with keys := ((1, "VK1"), { verkey := "VK1", signkey := [7] })
           :: wTest.keys } 1 { seed := none, cryptoType := none } =
      (Except.error IndyError.WalletItemAlreadyExists,
       [Event.primCreateKey, Event.walletAddKey 1 "VK1"],
       { wTest with keys := ((1, "VK1"), { verkey := "VK1", signkey := [7] })
          :: wTest.keys }) := by
  refine ⟨rfl, rfl, ?_, ?_⟩
  · exact ((C6_create_key_persists csTest wTest 1
      { seed := none, cryptoType := none } { verkey := "VK1", signkey := [7] }
      IndyError.InvalidKeyFormat).1 rfl).1 rfl
  · exact ((C6_create_key_persists csTest
      { wTest with keys := ((1, "VK1"), { verkey := "VK1", signkey := [7] })
         :: wTest.keys } 1
      { seed := none, cryptoType := none } { verkey := "VK1", signkey := [7] }
      IndyError.InvalidKeyFormat).1 rfl).2
      { verkey := "VK1", signkey := [7] } rfl

/-- C7: `crypto_verify` never touches the wallet — no event it emits is a
wallet access — and once the verkey format check passes its result is
exactly the crypto service's `verify` applied to the supplied verkey,
message and signature. -/
theorem C7_verify_no_wallet (cs : CryptoService) (their_vk : String)
    (msg signature : List Nat) :
    (∀ ev ∈ (crypto_verify cs their_vk msg signature).2,
      ev.isWalletCall = false) ∧
    (cs.validate_key their_vk = Except.ok () →
      (crypto_verify cs their_vk msg signature).1 =
        cs.verify their_vk msg signature) := by
  constructor
  · intro ev hev
    cases hv : cs.validate_key their_vk with
    | error e =>
      simp [crypto_verify, hv] at hev
      simp [hev, Event.isWalletCall]
    | ok u =>
      simp [crypto_verify, hv] at hev
      rcases hev with h | h <;> simp [h, Event.isWalletCall]
  · intro hv
    simp [crypto_verify, hv]

/-- C7 witness: on the concrete service, verification of a signature under
the verkey "good" returns exactly the primitive's verdict. -/
theorem C7_witness :
    csTest.validate_key "good" = Except.ok () ∧
    (crypto_verify csTest "good" [0] [1]).1 = csTest.verify "good" [0] [1] :=
  ⟨rfl, (C7_verify_no_wallet csTest "good" [0] [1]).2 rfl⟩

/-- C8: the metadata operations are insensitive to which `Key` records are
stored — their results and the metadata they leave depend only on the
metadata records, and `set_key_metadata` leaves the `Key` records untouched;
a read of never-set metadata under a well-formed verkey returns the wallet
not-found error, which is distinct from the cryptographic failure error. -/
theorem C8_metadata_ignores_keys (cs : CryptoService)
    (ks ks2 : List ((Int × String) × Key))
    (ms : List ((Int × String) × KeyMetadata)) (wh : Int) (vk m : String) :
    (get_key_metadata cs { keys := ks, meta := ms } wh vk =
      get_key_metadata cs { keys := ks2, meta := ms } wh vk) ∧
    ((set_key_metadata cs { keys := ks, meta := ms } wh vk m).1 =
      (set_key_metadata cs { keys := ks2, meta := ms } wh vk m).1) ∧
    ((set_key_metadata cs { keys := ks, meta := ms } wh vk m).2.2.meta =
      (set_key_metadata cs { keys := ks2, meta := ms } wh vk m).2.2.meta) ∧
    ((set_key_metadata cs { keys := ks, meta := ms } wh vk m).2.2.keys = ks) ∧
    (cs.validate_key vk = Except.ok () → assocGet ms wh vk = none →
      (get_key_metadata cs { keys := ks, meta := ms } wh vk).1 =
        Except.error IndyError.WalletItemNotFound) ∧
    IndyError.WalletItemNotFound ≠ IndyError.CryptoOperationFailed := by
  refine ⟨?_, ?_, ?_, ?_, ?_, by decide⟩
  · cases hv : cs.validate_key vk <;>
      simp [get_key_metadata, hv, wallet_get_metadata]
  · cases hv : cs.validate_key vk <;> simp [set_key_metadata, hv]
  · cases hv : cs.validate_key vk <;>
      simp [set_key_metadata, hv, wallet_upsert_metadata]
  · cases hv : cs.validate_key vk <;>
      simp [set_key_metadata, hv, wallet_upsert_metadata]
  · intro hv habs
    simp [get_key_metadata, hv, wallet_get_metadata, habs]

/-- C8 witness: the concrete wallet stores a `Key` record named "good" but
no metadata for it, and reading its metadata returns the not-found error. -/
theorem C8_witness :
    csTest.validate_key "good" = Except.ok () ∧
    assocGet wTest.meta 1 "good" = none ∧
    (get_key_metadata csTest wTest 1 "good").1 =
      Except.error IndyError.WalletItemNotFound :=
  ⟨rfl, rfl,
   (C8_metadata_ignores_keys csTest wTest.keys wTest.keys wTest.meta
     1 "good" "m1").2.2.2.2.1 rfl rfl⟩

/-- C9: while the worker end of the channel is alive, `send` enqueues the
command at the back of the queue and returns ok; it returns an error — an
`InvalidState` wrapping the channel's description — exactly when the worker
has terminated, and in that case the queue is untouched. -/
theorem C9_send_enqueues_or_fails (ch : Channel) (cmd : Command) :
    (ch.connected = true →
      commandExecutorSend ch cmd =
        Except.ok { queue := ch.queue ++ [cmd], connected := true }) ∧
    (ch.connected = false →
      commandExecutorSend ch cmd =
        Except.error (CommonError.InvalidState "sending on a closed channel")) ∧
    ((∃ e, commandExecutorSend ch cmd = Except.error e) ↔
      ch.connected = false) := by
  refine ⟨?_, ?_, ?_, ?_⟩
  · intro hc
    simp [commandExecutorSend, channel_send, hc]
  · intro hc
    simp [commandExecutorSend, channel_send, hc]
  · rintro ⟨e, he⟩
    cases hc : ch.connected with
    | false => rfl
    | true => simp [commandExecutorSend, channel_send, hc] at he
  · intro hc
    exact ⟨CommonError.InvalidState "sending on a closed channel",
      by simp [commandExecutorSend, channel_send, hc]⟩

/-- C9 witness: sending on a live empty channel enqueues and returns ok;
sending on a disconnected channel returns the invalid-state error. -/
theorem C9_witness :
    Channel.connected { queue := [], connected := true } = true ∧
    commandExecutorSend { queue := [], connected := true } Command.Exit =
      Except.ok { queue := [Command.Exit], connected := true } ∧
    Channel.connected { queue := [], connected := false } = false ∧
    commandExecutorSend { queue := [], connected := false } Command.Exit =
      Except.error (CommonError.InvalidState "sending on a closed channel") :=
  ⟨rfl,
   (C9_send_enqueues_or_fails { queue := [], connected := true }
     Command.Exit).1 rfl,
   rfl,
   (C9_send_enqueues_or_fails { queue := [], connected := false }
     Command.Exit).2.1 rfl⟩

/-- `wallet_get_key` succeeds exactly on the stored record. -/
theorem wallet_get_key_ok (w : WalletState) (h : Int) (name : String)
    (key : Key) (hk : wallet_get_key w h name = Except.ok key) :
    assocGet w.keys h name = some key := by
  unfold wallet_get_key at hk
  cases hg : assocGet w.keys h name with
  | none => rw [hg] at hk; exact absurd hk (by simp)
  | some k => rw [hg] at hk; simp at hk; rw [hk]

/-- C10: `authenticated_decrypt` performs exactly one verkey format
validation, on the caller-supplied `my_vk`, and performs it first — before
the wallet fetch; on success the (sender verkey, plaintext) pair is exactly
what the decryption primitive returned for the stored key, the recovered
sender verkey passing through unvalidated. -/
theorem C10_decrypt_single_validation (cs : CryptoService) (w : WalletState)
    (wh : Int) (my_vk : String) (msg : List Nat) :
    (authenticated_decrypt cs w wh my_vk msg).2.head? =
      some (Event.validateKey my_vk) ∧
    (authenticated_decrypt cs w wh my_vk msg).2.countP Event.isValidate = 1 ∧
    (∀ sender pt,
      (authenticated_decrypt cs w wh my_vk msg).1 = Except.ok (sender, pt) →
      ∃ key, assocGet w.keys wh my_vk = some key ∧
        cs.authenticated_decrypt key msg = Except.ok (sender, pt)) := by
  refine ⟨?_, ?_, ?_⟩
  · cases hv : cs.validate_key my_vk with
    | error e => simp [authenticated_decrypt, hv]
    | ok u =>
      cases hk : wallet_get_key w wh my_vk with
      | error e => simp [authenticated_decrypt, hv, hk]
      | ok key => simp [authenticated_decrypt, hv, hk]
  · cases hv : cs.validate_key my_vk with
    | error e =>
      simp [authenticated_decrypt, hv, List.countP_cons, List.countP_nil,
        Event.isValidate]
    | ok u =>
      cases hk : wallet_get_key w wh my_vk with
      | error e =>
        simp [authenticated_decrypt, hv, hk, List.countP_cons,
          List.countP_nil, Event.isValidate, Event.isWalletCall]
      | ok key =>
        simp [authenticated_decrypt, hv, hk, List.countP_cons,
          List.countP_nil, Event.isValidate]
  · intro sender pt hres
    cases hv : cs.validate_key my_vk with
    | error e => simp [authenticated_decrypt, hv] at hres
    | ok u =>
      cases hk : wallet_get_key w wh my_vk with
      | error e => simp [authenticated_decrypt, hv, hk] at hres
      | ok key =>
        refine ⟨key, wallet_get_key_ok w wh my_vk key hk, ?_⟩
        simpa [authenticated_decrypt, hv, hk] using hres

/-- C10 witness: on the concrete service, decrypting under the stored key
"good" recovers the sender verkey "bad" — a string the validator rejects —
yet the pair is returned unvalidated, and the trace starts with the single
validation of "good". -/
theorem C10_witness :
    (authenticated_decrypt csTest wTest 1 "good" [9]).1 =
      Except.ok ("bad", [9]) ∧
    csTest.validate_key "bad" = Except.error IndyError.InvalidKeyFormat ∧
    (authenticated_decrypt csTest wTest 1 "good" [9]).2.head? =
      some (Event.validateKey "good") ∧
    ∃ key, assocGet wTest.keys 1 "good" = some key ∧
      csTest.authenticated_decrypt key [9] = Except.ok ("bad", [9]) :=
  ⟨rfl, rfl,
   (C10_decrypt_single_validation csTest wTest 1 "good" [9]).1,
   (C10_decrypt_single_validation csTest wTest 1 "good" [9]).2.2
     "bad" [9] rfl⟩
